import Mathlib

/-!
Verification of the gartal stream-reading library (src/index.ts).

Bytes are modelled as natural numbers below 256, byte blocks as lists of
naturals.  Decoded text is modelled by its byte sequence: the source decodes
a buffer with buf.toString(encoding), and every text the claims mention is
ASCII, for which the utf8 decode is the identity on byte content.

The readable stream is the external collaborator of spec section 6: it is
modelled by the bytes now sitting in its internal buffer together with the
chunks it will deliver later, after the last of which the stream has ended.
Its pull operation (stream.read(size)) follows the collaborator contract:
it returns a block of fewer than the requested bytes only when the stream
has ended.
-/

namespace Gartal

/-- Errors of the library.  The source throws generic Error values with
distinguishing messages; the spec taxonomy names them.  insufficientData
carries the requested and the actual byte counts, as in the message built at
index.ts line 15.  bufferRangeError models the range error Node's Buffer
methods themselves throw for an unsupported offset or byte length; it is not
produced by code of this library. -/
inductive GErr where
  | insufficientData (requested actual : Nat)
  | streamError
  | valueOutOfRange
  | uuidValidationFailed
  | invalidArgument
  | bufferRangeError
  deriving DecidableEq, Repr

/-- Model of the external readable stream: the bytes currently in its internal
buffer, and the chunks it will deliver later (the stream ends after the last
of them). -/
structure ReadableStream where
  buffered : List Nat
  future : List (List Nat)
  deriving DecidableEq, Repr

/-- Every byte the stream ever delivers, in order. -/
def ReadableStream.total (s : ReadableStream) : List Nat :=
  s.buffered ++ s.future.flatten

/-- Embedding of the checkDone loop of readBytes (index.ts lines 10 to 22),
data-flow view.  The pull stream.read(size) yields the first size buffered
bytes when that many are present; once the stream has ended (no future
chunks) it yields whatever remains, per the collaborator contract of spec
section 6; otherwise it yields nothing and checkDone re-runs after the next
readable notification, which delivers the next chunk into the buffer.  A
truthy pull result of the wrong length rejects with insufficientData, one of
the requested length resolves. -/
def readBytesGo (size : Nat) (future : List (List Nat)) (buffered : List Nat) :
    Except GErr (List Nat) × ReadableStream :=
  if size ≤ buffered.length then
    (Except.ok (buffered.take size), ⟨buffered.drop size, future⟩)
  else
    match future with
    | [] => (Except.error (GErr.insufficientData size buffered.length), ⟨[], []⟩)
    | c :: rest => readBytesGo size rest (buffered ++ c)

/-- readBytes (index.ts lines 7 to 24): resolve with exactly size bytes from
the front of the stream, or reject. -/
def readBytes (stream : ReadableStream) (size : Nat) :
    Except GErr (List Nat) × ReadableStream :=
  readBytesGo size stream.future stream.buffered

/-- Sequencing helper: run a read, and on success feed the block to a pure
decoding step, as the decoders of index.ts do with await readBytes. -/
def andThen {α : Type} (r : Except GErr (List Nat) × ReadableStream)
    (f : List Nat → Except GErr α) : Except GErr α × ReadableStream :=
  (r.1.bind f, r.2)

/-- readText (index.ts lines 33 to 36): read size bytes and decode them as
text.  Text is modelled by its byte sequence, so the decode step is the
identity on content (see the file comment). -/
def readText (stream : ReadableStream) (size : Nat) :
    Except GErr (List Nat) × ReadableStream :=
  readBytes stream size

/-- Big-endian unsigned value of a byte list, as computed by Node's
buf.readUIntBE and friends. -/
def uintBE (bytes : List Nat) : Nat :=
  bytes.foldl (fun acc b => acc * 256 + b) 0

/-- Little-endian unsigned value of a byte list. -/
def uintLE (bytes : List Nat) : Nat :=
  uintBE bytes.reverse

/-- Two's-complement reading of an unsigned value of len bytes, as Node's
signed Buffer readers interpret the raw bytes. -/
def intOfUInt (u : Nat) (len : Nat) : Int :=
  if 2 * u < 256 ^ len then (u : Int) else (u : Int) - 256 ^ len

/-- Node Buffer primitive: read an unsigned big-endian integer of len bytes at
offset, range-checked against the buffer length. -/
def bufUIntBEat (bytes : List Nat) (offset len : Nat) : Except GErr Nat :=
  if offset + len ≤ bytes.length then
    Except.ok (uintBE ((bytes.drop offset).take len))
  else
    Except.error GErr.bufferRangeError

/-- Node Buffer primitive: read an unsigned little-endian integer of len bytes
at offset. -/
def bufUIntLEat (bytes : List Nat) (offset len : Nat) : Except GErr Nat :=
  if offset + len ≤ bytes.length then
    Except.ok (uintLE ((bytes.drop offset).take len))
  else
    Except.error GErr.bufferRangeError

/-- Node Buffer primitive: read a signed big-endian integer of len bytes at
offset (two's complement). -/
def bufIntBEat (bytes : List Nat) (offset len : Nat) : Except GErr Int :=
  (bufUIntBEat bytes offset len).map (fun u => intOfUInt u len)

/-- Node Buffer primitive: read a signed little-endian integer of len bytes at
offset (two's complement). -/
def bufIntLEat (bytes : List Nat) (offset len : Nat) : Except GErr Int :=
  (bufUIntLEat bytes offset len).map (fun u => intOfUInt u len)

/-- Node's generic buf.readUIntBE(offset, byteLength): supports byte lengths
1 to 6 only, everything else is a range error of the Buffer layer. -/
def bufReadUIntBE (bytes : List Nat) (offset len : Nat) : Except GErr Nat :=
  if 1 ≤ len ∧ len ≤ 6 then bufUIntBEat bytes offset len
  else Except.error GErr.bufferRangeError

/-- Node's generic buf.readUIntLE(offset, byteLength). -/
def bufReadUIntLE (bytes : List Nat) (offset len : Nat) : Except GErr Nat :=
  if 1 ≤ len ∧ len ≤ 6 then bufUIntLEat bytes offset len
  else Except.error GErr.bufferRangeError

/-- Node's generic buf.readIntBE(offset, byteLength): byte lengths 1 to 6. -/
def bufReadIntBE (bytes : List Nat) (offset len : Nat) : Except GErr Int :=
  if 1 ≤ len ∧ len ≤ 6 then bufIntBEat bytes offset len
  else Except.error GErr.bufferRangeError

/-- Node's generic buf.readIntLE(offset, byteLength). -/
def bufReadIntLE (bytes : List Nat) (offset len : Nat) : Except GErr Int :=
  if 1 ≤ len ∧ len ≤ 6 then bufIntLEat bytes offset len
  else Except.error GErr.bufferRangeError

/-- readInt8 (index.ts lines 115 to 118). -/
def readInt8 (stream : ReadableStream) : Except GErr Int × ReadableStream :=
  andThen (readBytes stream 1) fun buf => bufIntBEat buf 0 1

/-- readInt16BE (index.ts lines 120 to 123). -/
def readInt16BE (stream : ReadableStream) : Except GErr Int × ReadableStream :=
  andThen (readBytes stream 2) fun buf => bufIntBEat buf 0 2

/-- readInt16LE (index.ts lines 125 to 128). -/
def readInt16LE (stream : ReadableStream) : Except GErr Int × ReadableStream :=
  andThen (readBytes stream 2) fun buf => bufIntLEat buf 0 2

/-- readInt32BE (index.ts lines 130 to 133). -/
def readInt32BE (stream : ReadableStream) : Except GErr Int × ReadableStream :=
  andThen (readBytes stream 4) fun buf => bufIntBEat buf 0 4

/-- readInt32LE (index.ts lines 135 to 138). -/
def readInt32LE (stream : ReadableStream) : Except GErr Int × ReadableStream :=
  andThen (readBytes stream 4) fun buf => bufIntLEat buf 0 4

/-- readIntBE (index.ts lines 140 to 143): reads byteLength bytes and hands
them to the generic signed Buffer decoder; there is no dispatch on the value
of byteLength in the source. -/
def readIntBE (stream : ReadableStream) (byteLength : Nat) :
    Except GErr Int × ReadableStream :=
  andThen (readBytes stream byteLength) fun buf => bufReadIntBE buf 0 byteLength

/-- readIntLE (index.ts lines 145 to 148). -/
def readIntLE (stream : ReadableStream) (byteLength : Nat) :
    Except GErr Int × ReadableStream :=
  andThen (readBytes stream byteLength) fun buf => bufReadIntLE buf 0 byteLength

/-- readUInt8 (index.ts lines 150 to 153). -/
def readUInt8 (stream : ReadableStream) : Except GErr Nat × ReadableStream :=
  andThen (readBytes stream 1) fun buf => bufUIntBEat buf 0 1

/-- readUInt16BE (index.ts lines 155 to 158). -/
def readUInt16BE (stream : ReadableStream) : Except GErr Nat × ReadableStream :=
  andThen (readBytes stream 2) fun buf => bufUIntBEat buf 0 2

/-- readUInt16LE (index.ts lines 160 to 163). -/
def readUInt16LE (stream : ReadableStream) : Except GErr Nat × ReadableStream :=
  andThen (readBytes stream 2) fun buf => bufUIntLEat buf 0 2

/-- readUInt32BE (index.ts lines 165 to 168). -/
def readUInt32BE (stream : ReadableStream) : Except GErr Nat × ReadableStream :=
  andThen (readBytes stream 4) fun buf => bufUIntBEat buf 0 4

/-- readUInt32LE (index.ts lines 170 to 173). -/
def readUInt32LE (stream : ReadableStream) : Except GErr Nat × ReadableStream :=
  andThen (readBytes stream 4) fun buf => bufUIntLEat buf 0 4

/-- readUInt64BE (index.ts lines 181 to 188): read 8 bytes; if either of the
two leading bytes is non-zero, throw the value-out-of-range error; otherwise
decode bytes 2 to 7 with buf.readUIntBE(2, 6). -/
def readUInt64BE (stream : ReadableStream) : Except GErr Nat × ReadableStream :=
  andThen (readBytes stream 8) fun buf =>
    if buf.getD 0 0 ≠ 0 ∨ buf.getD 1 0 ≠ 0 then Except.error GErr.valueOutOfRange
    else bufReadUIntBE buf 2 6

/-- readUInt64LE (index.ts lines 196 to 203): read 8 bytes; if either of the
two trailing bytes is non-zero, throw the value-out-of-range error; otherwise
decode bytes 0 to 5 with buf.readUIntLE(0, 6). -/
def readUInt64LE (stream : ReadableStream) : Except GErr Nat × ReadableStream :=
  andThen (readBytes stream 8) fun buf =>
    if buf.getD 6 0 ≠ 0 ∨ buf.getD 7 0 ≠ 0 then Except.error GErr.valueOutOfRange
    else bufReadUIntLE buf 0 6

/-- readUIntBE (index.ts lines 205 to 214): byteLength 8 dispatches to
readUInt64BE, byteLength 7 throws the invalid-byteLength error before any
read, anything else reads byteLength bytes and uses the generic unsigned
Buffer decoder. -/
def readUIntBE (stream : ReadableStream) (byteLength : Nat) :
    Except GErr Nat × ReadableStream :=
  if byteLength = 8 then readUInt64BE stream
  else if byteLength = 7 then (Except.error GErr.invalidArgument, stream)
  else andThen (readBytes stream byteLength) fun buf => bufReadUIntBE buf 0 byteLength

/-- readUIntLE (index.ts lines 216 to 224). -/
def readUIntLE (stream : ReadableStream) (byteLength : Nat) :
    Except GErr Nat × ReadableStream :=
  if byteLength = 8 then readUInt64LE stream
  else if byteLength = 7 then (Except.error GErr.invalidArgument, stream)
  else andThen (readBytes stream byteLength) fun buf => bufReadUIntLE buf 0 byteLength

/-- Hexadecimal digit test on an ASCII byte, case-insensitive, as one
character class of the pattern at index.ts line 39. -/
def isHexByte (b : Nat) : Bool :=
  if (48 ≤ b ∧ b ≤ 57) ∨ (97 ≤ b ∧ b ≤ 102) ∨ (65 ≤ b ∧ b ≤ 70) then true else false

/-- Run of n hexadecimal characters starting at position i (positions past
the end read 0, which is not a hex character). -/
def hexRun (s : List Nat) (i n : Nat) : Bool :=
  (List.range n).all fun k => isHexByte (s.getD (i + k) 0)

/-- Match of the UUID pattern 8-4-4-4-12 with dashes (ASCII 45) at a given
start position of the text. -/
def matchUuidAt (s : List Nat) (i : Nat) : Bool :=
  hexRun s i 8 && (s.getD (i + 8) 0 == 45) &&
  hexRun s (i + 9) 4 && (s.getD (i + 13) 0 == 45) &&
  hexRun s (i + 14) 4 && (s.getD (i + 18) 0 == 45) &&
  hexRun s (i + 19) 4 && (s.getD (i + 23) 0 == 45) &&
  hexRun s (i + 24) 12

/-- UUID_STRING_PATTERN.test (index.ts line 39): the regular expression is
unanchored, so the test searches for a match at any start position. -/
def uuidPatternTest (s : List Nat) : Bool :=
  (List.range (s.length + 1)).any fun i => matchUuidAt s i

/-- Length of the default text UUID serialization (index.ts line 38). -/
def UUID_STRING_LENGTH : Nat := 36

/-- Validator argument of readTextUuid as the source inspects it at run time:
a falsy value (null), a regular expression (carrying its test), a function,
or a truthy value of any other kind. -/
inductive JsValidator where
  | nullv
  | regexp (test : List Nat → Bool)
  | func (f : List Nat → Bool)
  | other

/-- readTextUuid (index.ts lines 57 to 77): read size bytes as text; when the
validator is truthy, apply it according to its run-time kind, rejecting the
text on a failed test and rejecting validators of unrecognized kind; return
the text otherwise. -/
def readTextUuid (stream : ReadableStream) (validator : JsValidator)
    (size : Nat) : Except GErr (List Nat) × ReadableStream :=
  andThen (readText stream size) fun text =>
    match validator with
    | JsValidator.nullv => Except.ok text
    | JsValidator.regexp t =>
        if t text then Except.ok text else Except.error GErr.uuidValidationFailed
    | JsValidator.func f =>
        if f text then Except.ok text else Except.error GErr.uuidValidationFailed
    | JsValidator.other => Except.error GErr.invalidArgument

/-- readTextUuid with its default options (index.ts lines 57 to 61): the
dashed-hex pattern as validator and 36 bytes. -/
def readTextUuidDefault (stream : ReadableStream) :
    Except GErr (List Nat) × ReadableStream :=
  readTextUuid stream (JsValidator.regexp uuidPatternTest) UUID_STRING_LENGTH

/-- ASCII code of the lowercase hexadecimal digit of a value below 16, as
produced by buf.toString applied to a hex encoding. -/
def hexDigitChar (n : Nat) : Nat :=
  if n < 10 then 48 + n else 87 + n

/-- Lowercase hex encoding of a byte list as ASCII text, two characters per
byte. -/
def bytesToHex (l : List Nat) : List Nat :=
  l.flatMap fun b => [hexDigitChar (b / 16), hexDigitChar (b % 16)]

/-- readBinaryUuid (index.ts lines 84 to 93): read 16 bytes, hex-encode the
slices 0-4, 4-6, 6-8, 8-10, 10-16 and join them with dashes (ASCII 45). -/
def readBinaryUuid (stream : ReadableStream) :
    Except GErr (List Nat) × ReadableStream :=
  andThen (readBytes stream 16) fun buf =>
    Except.ok (bytesToHex (buf.take 4) ++ [45] ++
      bytesToHex ((buf.drop 4).take 2) ++ [45] ++
      bytesToHex ((buf.drop 6).take 2) ++ [45] ++
      bytesToHex ((buf.drop 8).take 2) ++ [45] ++
      bytesToHex ((buf.drop 10).take 6))

/-- Modelled from the spec: the canonical dashed UUID text of a 16-byte
block, namely its lowercase hex encoding with dashes inserted after hex
positions 8, 12, 16 and 20 (byte groups 4-2-2-2-6).  Used to compare the
code's slicing against the spec's description. -/
def canonicalUuidOfBytes (block : List Nat) : List Nat :=
  (bytesToHex block).take 8 ++ [45] ++
  ((bytesToHex block).drop 8).take 4 ++ [45] ++
  ((bytesToHex block).drop 12).take 4 ++ [45] ++
  ((bytesToHex block).drop 16).take 4 ++ [45] ++
  (bytesToHex block).drop 20

/-- Events the stream can emit while one readBytes call is outstanding: a
data chunk arriving (with its readable notification), the end of the stream
(which also fires a readable notification), and a stream error. -/
inductive StreamEvent where
  | chunk (data : List Nat)
  | ended
  | error
  deriving Repr

/-- State of one readBytes call in the listener-tracking view: the stream's
buffered bytes and ended flag, whether the error listener registered at
index.ts line 9 is attached, whether a once-readable listener is pending
(index.ts line 20), and the settled outcome of the promise, if any. -/
structure MachState where
  buffered : List Nat
  ended : Bool
  errListener : Bool
  readListener : Bool
  settled : Option (Except GErr (List Nat))
  deriving Repr

/-- Settling of the promise: the first resolution or rejection wins, later
ones are ignored. -/
def settle (r : Except GErr (List Nat)) (s : MachState) : MachState :=
  if s.settled.isSome then s else { s with settled := some r }

/-- Pull stream.read(size) under the collaborator contract of spec section 6:
a block of the requested length when available, the remainder once the stream
has ended, nothing otherwise. -/
def pull (buffered : List Nat) (ended : Bool) (size : Nat) : Option (List Nat) :=
  if size ≤ buffered.length then some (buffered.take size)
  else if ended then some buffered
  else none

/-- checkDone (index.ts lines 10 to 21), listener-tracking view.  On a truthy
pull the error listener is removed (line 13), then the call rejects on a
short block and resolves on an exact one; on a falsy pull a once-readable
listener is registered (line 20). -/
def checkDone (size : Nat) (s : MachState) : MachState :=
  match pull s.buffered s.ended size with
  | some buf =>
      let s1 := { s with errListener := false, buffered := s.buffered.drop buf.length }
      if buf.length = size then settle (Except.ok buf) s1
      else settle (Except.error (GErr.insufficientData size buf.length)) s1
  | none => { s with readListener := true }

/-- Reaction of the readBytes call to one stream event.  A chunk or the end
of the stream fires the readable notification: the pending once-listener, if
any, is removed and checkDone re-runs.  An error event invokes the reject
handler while it is attached; the handler was registered with on, so it stays
attached, and a pending readable listener is not removed either. -/
def handleEvent (size : Nat) (s : MachState) (e : StreamEvent) : MachState :=
  match e with
  | StreamEvent.chunk d =>
      let s1 := { s with buffered := s.buffered ++ d }
      if s1.readListener then checkDone size { s1 with readListener := false } else s1
  | StreamEvent.ended =>
      let s1 := { s with ended := true }
      if s1.readListener then checkDone size { s1 with readListener := false } else s1
  | StreamEvent.error =>
      if s.errListener then settle (Except.error GErr.streamError) s else s

/-- One whole readBytes call (index.ts lines 7 to 24) in the listener-tracking
view: attach the error listener, run checkDone once synchronously, then react
to the stream's events in order. -/
def readBytesMach (size : Nat) (init : List Nat) (events : List StreamEvent) :
    MachState :=
  events.foldl (handleEvent size) (checkDone size ⟨init, false, true, false, none⟩)

/-- Modelled from Node's Buffer write primitives as used by the tests: the
big-endian base-256 digits of a value, w bytes wide (the value taken modulo
256 to the w). -/
def natToBytesBE : Nat → Nat → List Nat
  | _, 0 => []
  | v, w + 1 => natToBytesBE (v / 256) w ++ [v % 256]

/-- Unsigned big-endian encoding at width w (buf.writeUIntBE). -/
def encodeUIntBE (v w : Nat) : List Nat := natToBytesBE v w

/-- Unsigned little-endian encoding at width w (buf.writeUIntLE). -/
def encodeUIntLE (v w : Nat) : List Nat := (natToBytesBE v w).reverse

/-- Signed two's-complement big-endian encoding at width w
(buf.writeIntBE). -/
def encodeIntBE (v : Int) (w : Nat) : List Nat :=
  natToBytesBE (v % ((256 : Int) ^ w)).toNat w

/-- Signed two's-complement little-endian encoding at width w
(buf.writeIntLE). -/
def encodeIntLE (v : Int) (w : Nat) : List Nat := (encodeIntBE v w).reverse

/-- ASCII bytes of the text 4bfabc01-d385-46fe-b010-8eb17cf657e7, the UUID of
the repository's tests. -/
def uuidTextBytes : List Nat :=
  [52, 98, 102, 97, 98, 99, 48, 49, 45,
   100, 51, 56, 53, 45,
   52, 54, 102, 101, 45,
   98, 48, 49, 48, 45,
   56, 101, 98, 49, 55, 99, 102, 54, 53, 55, 101, 55]

/-- The 16 bytes of the binary form of the same UUID. -/
def uuidBinaryBytes : List Nat :=
  [0x4b, 0xfa, 0xbc, 0x01, 0xd3, 0x85, 0x46, 0xfe,
   0xb0, 0x10, 0x8e, 0xb1, 0x7c, 0xf6, 0x57, 0xe7]

/-- Helper: when the stream eventually delivers at least size bytes, the
checkDone loop resolves with the first size of them and leaves a stream whose
remaining delivery is the rest. -/
theorem readBytesGo_ok (size : Nat) (future : List (List Nat)) (buffered : List Nat)
    (h : size ≤ (buffered ++ future.flatten).length) :
    (readBytesGo size future buffered).1 =
      Except.ok ((buffered ++ future.flatten).take size) ∧
    ((readBytesGo size future buffered).2).total =
      (buffered ++ future.flatten).drop size := by
  induction future generalizing buffered with
  | nil =>
      simp only [List.flatten_nil, List.append_nil] at h ⊢
      rw [readBytesGo, if_pos h]
      exact ⟨rfl, by simp [ReadableStream.total]⟩
  | cons c rest ih =>
      by_cases hb : size ≤ buffered.length
      · rw [readBytesGo, if_pos hb]
        constructor
        · simp [List.take_append_of_le_length hb]
        · simp [ReadableStream.total, List.drop_append_of_le_length hb]
      · rw [readBytesGo, if_neg hb]
        have h2 : size ≤ ((buffered ++ c) ++ rest.flatten).length := by
          simpa [List.append_assoc] using h
        simpa [List.append_assoc] using ih (buffered ++ c) h2

/-- Helper: readBytes stated over the stream. -/
theorem readBytes_spec (stream : ReadableStream) (size : Nat)
    (h : size ≤ stream.total.length) :
    (readBytes stream size).1 = Except.ok (stream.total.take size) ∧
    ((readBytes stream size).2).total = stream.total.drop size :=
  readBytesGo_ok size stream.future stream.buffered h

/-- Helper: when the stream ends short of the request, the loop rejects with
the requested and the actual (total) byte counts. -/
theorem readBytesGo_short (size : Nat) (future : List (List Nat)) (buffered : List Nat)
    (h : (buffered ++ future.flatten).length < size) :
    (readBytesGo size future buffered).1 =
      Except.error (GErr.insufficientData size (buffered ++ future.flatten).length) := by
  induction future generalizing buffered with
  | nil =>
      have hb : ¬ size ≤ buffered.length := by simp at h; omega
      rw [readBytesGo, if_neg hb]
      simp
  | cons c rest ih =>
      have hb : ¬ size ≤ buffered.length := by
        have hl : buffered.length ≤ (buffered ++ (c :: rest).flatten).length := by simp
        omega
      rw [readBytesGo, if_neg hb]
      have h2 : ((buffered ++ c) ++ rest.flatten).length < size := by
        simpa [List.append_assoc] using h
      simpa [List.append_assoc] using ih (buffered ++ c) h2

/-- Helper: the only rejection readBytes itself produces is insufficientData. -/
theorem readBytesGo_error_insufficient (size : Nat) (future : List (List Nat))
    (buffered : List Nat) (e : GErr)
    (h : (readBytesGo size future buffered).1 = Except.error e) :
    ∃ m n, e = GErr.insufficientData m n := by
  induction future generalizing buffered with
  | nil =>
      rw [readBytesGo] at h
      by_cases hb : size ≤ buffered.length
      · rw [if_pos hb] at h
        simp at h
      · rw [if_neg hb] at h
        simp at h
        exact ⟨size, buffered.length, h.symm⟩
  | cons c rest ih =>
      rw [readBytesGo] at h
      by_cases hb : size ≤ buffered.length
      · rw [if_pos hb] at h
        simp at h
      · rw [if_neg hb] at h
        exact ih (buffered ++ c) h

/-- Helper: a stream already holding exactly the requested bytes resolves with
all of them and is left drained. -/
theorem readBytes_exact (block : List Nat) (size : Nat) (h : block.length = size) :
    readBytes ⟨block, []⟩ size = (Except.ok block, ⟨[], []⟩) := by
  subst h
  rw [readBytes, readBytesGo.eq_def, if_pos (le_refl block.length)]
  simp

/-- C1: for every size and every stream whose total delivered byte sequence
is long enough, readBytes resolves with exactly the first size bytes, and a
subsequent sequential readBytes on the same stream resolves with the bytes
starting at offset size: consumption is sequential, with no overlap and no
loss. -/
theorem readBytes_exact_sequential (stream : ReadableStream) (size1 size2 : Nat)
    (h : size1 + size2 ≤ stream.total.length) :
    (readBytes stream size1).1 = Except.ok (stream.total.take size1) ∧
    (readBytes ((readBytes stream size1).2) size2).1 =
      Except.ok ((stream.total.drop size1).take size2) := by
  have h1 : size1 ≤ stream.total.length := by omega
  obtain ⟨ha, hb⟩ := readBytes_spec stream size1 h1
  refine ⟨ha, ?_⟩
  have h2 : size2 ≤ ((readBytes stream size1).2).total.length := by
    rw [hb]
    simp only [List.length_drop]
    omega
  obtain ⟨hc, _⟩ := readBytes_spec ((readBytes stream size1).2) size2 h2
  rw [hc, hb]

/-- Witness for C1 at a concrete stream delivered in two chunks. -/
theorem readBytes_exact_sequential_witness :
    (readBytes ⟨[10, 20], [[30, 40]]⟩ 1).1 = Except.ok [10] ∧
    (readBytes ((readBytes ⟨[10, 20], [[30, 40]]⟩ 1).2) 3).1 =
      Except.ok [20, 30, 40] :=
  readBytes_exact_sequential ⟨[10, 20], [[30, 40]]⟩ 1 3 (by decide)

/-- C2: when the stream ends with fewer total bytes than requested, readBytes
rejects with insufficientData carrying the requested and the actual counts;
the error constructor carries no byte block, so no partial data reaches the
caller. -/
theorem readBytes_insufficientData (stream : ReadableStream) (size : Nat)
    (h : stream.total.length < size) :
    (readBytes stream size).1 =
      Except.error (GErr.insufficientData size stream.total.length) :=
  readBytesGo_short size stream.future stream.buffered h

/-- Witness for C2: five bytes requested from a stream that ends after two. -/
theorem readBytes_insufficientData_witness :
    (readBytes ⟨[1], [[2]]⟩ 5).1 = Except.error (GErr.insufficientData 5 2) :=
  readBytes_insufficientData ⟨[1], [[2]]⟩ 5 (by decide)

/-- C5: readBytes with size 0 resolves on the very first readable check with
the empty block, leaving the stream untouched; in the event view, the call is
already settled before any stream event arrives, so it never stays
suspended. -/
theorem readBytes_size_zero :
    (∀ stream : ReadableStream, readBytes stream 0 = (Except.ok [], stream)) ∧
    (∀ init : List Nat,
      (readBytesMach 0 init []).settled = some (Except.ok [])) := by
  constructor
  · intro stream
    rw [readBytes, readBytesGo.eq_def, if_pos (Nat.zero_le stream.buffered.length)]
    simp
  · intro init
    simp [readBytesMach, checkDone, pull, settle]

/-- Helper: the big-endian accumulator stays below B times 256 to the number
of remaining bytes, for byte lists of values below 256. -/
theorem uintBE_foldl_lt (l : List Nat) (acc B : Nat) (hacc : acc < B)
    (hl : ∀ b ∈ l, b < 256) :
    l.foldl (fun a b => a * 256 + b) acc < B * 256 ^ l.length := by
  induction l generalizing acc B with
  | nil => simpa using hacc
  | cons b t ih =>
      have hb : b < 256 := hl b (by simp)
      have hstep : acc * 256 + b < B * 256 := by
        have h1 : acc + 1 ≤ B := hacc
        have h2 : acc * 256 + 256 ≤ B * 256 := by
          calc acc * 256 + 256 = (acc + 1) * 256 := by ring
          _ ≤ B * 256 := Nat.mul_le_mul_right 256 h1
        omega
      have h3 := ih (acc * 256 + b) (B * 256) hstep (fun x hx => hl x (by simp [hx]))
      calc (b :: t).foldl (fun a c => a * 256 + c) acc
          = t.foldl (fun a c => a * 256 + c) (acc * 256 + b) := rfl
      _ < B * 256 * 256 ^ t.length := h3
      _ = B * 256 ^ (b :: t).length := by
          simp [List.length_cons, pow_succ]
          ring

/-- Helper: the unsigned big-endian value of w bytes below 256 is below 256 to
the w. -/
theorem uintBE_lt (l : List Nat) (hl : ∀ b ∈ l, b < 256) :
    uintBE l < 256 ^ l.length := by
  simpa using uintBE_foldl_lt l 0 1 one_pos hl

/-- Helper: appending a low byte multiplies the big-endian value by 256. -/
theorem uintBE_append_singleton (l : List Nat) (x : Nat) :
    uintBE (l ++ [x]) = uintBE l * 256 + x := by
  simp [uintBE]

/-- Helper: the encoder always emits exactly w bytes. -/
theorem natToBytesBE_length (v w : Nat) : (natToBytesBE v w).length = w := by
  induction w generalizing v with
  | zero => rfl
  | succ w ih => simp [natToBytesBE, ih]

/-- Helper: decoding the w-byte big-endian encoding recovers the value modulo
256 to the w. -/
theorem uintBE_natToBytesBE (v w : Nat) :
    uintBE (natToBytesBE v w) = v % 256 ^ w := by
  induction w generalizing v with
  | zero => simp [natToBytesBE, uintBE, Nat.mod_one]
  | succ w ih =>
      rw [natToBytesBE, uintBE_append_singleton, ih]
      have hmm := @Nat.mod_mul 256 (256 ^ w) v
      rw [pow_succ]
      calc v / 256 % 256 ^ w * 256 + v % 256
          = v % 256 + 256 * (v / 256 % 256 ^ w) := by ring
      _ = v % (256 * 256 ^ w) := hmm.symm
      _ = v % (256 ^ w * 256) := by ring_nf

/-- Helper: unsigned big-endian round trip at any width. -/
theorem uint_roundtrip_BE (v w : Nat) (h : v < 256 ^ w) :
    uintBE (encodeUIntBE v w) = v := by
  rw [encodeUIntBE, uintBE_natToBytesBE, Nat.mod_eq_of_lt h]

/-- Helper: unsigned little-endian round trip at any width. -/
theorem uint_roundtrip_LE (v w : Nat) (h : v < 256 ^ w) :
    uintLE (encodeUIntLE v w) = v := by
  rw [encodeUIntLE, uintLE, List.reverse_reverse, uintBE_natToBytesBE,
    Nat.mod_eq_of_lt h]

/-- Helper: signed two's-complement big-endian round trip at any width, for
values whose double is within plus or minus 256 to the w. -/
theorem int_roundtrip_BE (v : Int) (w : Nat)
    (h1 : -((256 : Int) ^ w) ≤ 2 * v) (h2 : 2 * v < (256 : Int) ^ w) :
    intOfUInt (uintBE (encodeIntBE v w)) w = v := by
  have h0 : (0 : Int) < (256 : Int) ^ w := pow_pos (by norm_num) w
  have hcast : ((256 ^ w : Nat) : Int) = (256 : Int) ^ w := by push_cast; ring
  have hnn : 0 ≤ v % ((256 : Int) ^ w) := Int.emod_nonneg v (ne_of_gt h0)
  have hlt : v % ((256 : Int) ^ w) < (256 : Int) ^ w := Int.emod_lt_of_pos v h0
  have key : uintBE (encodeIntBE v w) = (v % ((256 : Int) ^ w)).toNat := by
    rw [encodeIntBE, uintBE_natToBytesBE]
    apply Nat.mod_eq_of_lt
    omega
  rw [key, intOfUInt]
  rcases le_or_lt 0 v with hv | hv
  · have hvm : v % ((256 : Int) ^ w) = v := by
      apply Int.emod_eq_of_lt hv
      omega
    rw [hvm]
    split_ifs with hc <;> omega
  · have hvm : v % ((256 : Int) ^ w) = v + (256 : Int) ^ w := by
      have hstep : (v + (256 : Int) ^ w * 1) % ((256 : Int) ^ w) =
          v % ((256 : Int) ^ w) := Int.add_mul_emod_self_left v ((256 : Int) ^ w) 1
      have hv2 : v + (256 : Int) ^ w < (256 : Int) ^ w := by omega
      have hv1 : 0 ≤ v + (256 : Int) ^ w := by omega
      calc v % ((256 : Int) ^ w)
          = (v + (256 : Int) ^ w * 1) % ((256 : Int) ^ w) := hstep.symm
      _ = (v + (256 : Int) ^ w) % ((256 : Int) ^ w) := by ring_nf
      _ = v + (256 : Int) ^ w := Int.emod_eq_of_lt hv1 hv2
    rw [hvm]
    split_ifs with hc <;> omega

/-- Helper: signed little-endian round trip at any width. -/
theorem int_roundtrip_LE (v : Int) (w : Nat)
    (h1 : -((256 : Int) ^ w) ≤ 2 * v) (h2 : 2 * v < (256 : Int) ^ w) :
    intOfUInt (uintLE (encodeIntLE v w)) w = v := by
  rw [encodeIntLE, uintLE, List.reverse_reverse]
  exact int_roundtrip_BE v w h1 h2

/-- Helper: a fixed-width unsigned big-endian decoder applied to a stream
preloaded with exactly its width in bytes. -/
theorem fixed_uintBE_decode (block : List Nat) (size : Nat) (h : block.length = size) :
    (andThen (readBytes ⟨block, []⟩ size) fun buf => bufUIntBEat buf 0 size).1 =
      Except.ok (uintBE block) := by
  rw [readBytes_exact block size h, andThen]
  simp [Except.bind, bufUIntBEat, h, List.take_of_length_le (le_of_eq h)]

/-- Helper: the little-endian counterpart. -/
theorem fixed_uintLE_decode (block : List Nat) (size : Nat) (h : block.length = size) :
    (andThen (readBytes ⟨block, []⟩ size) fun buf => bufUIntLEat buf 0 size).1 =
      Except.ok (uintLE block) := by
  rw [readBytes_exact block size h, andThen]
  simp [Except.bind, bufUIntLEat, h, List.take_of_length_le (le_of_eq h)]

/-- Helper: the signed big-endian counterpart. -/
theorem fixed_intBE_decode (block : List Nat) (size : Nat) (h : block.length = size) :
    (andThen (readBytes ⟨block, []⟩ size) fun buf => bufIntBEat buf 0 size).1 =
      Except.ok (intOfUInt (uintBE block) size) := by
  rw [readBytes_exact block size h, andThen]
  simp [Except.bind, Except.map, bufIntBEat, bufUIntBEat, h, List.take_of_length_le (le_of_eq h)]

/-- Helper: the signed little-endian counterpart. -/
theorem fixed_intLE_decode (block : List Nat) (size : Nat) (h : block.length = size) :
    (andThen (readBytes ⟨block, []⟩ size) fun buf => bufIntLEat buf 0 size).1 =
      Except.ok (intOfUInt (uintLE block) size) := by
  rw [readBytes_exact block size h, andThen]
  simp [Except.bind, Except.map, bufIntLEat, bufUIntLEat, h, List.take_of_length_le (le_of_eq h)]

/-- C9: encoding a signed or unsigned integer of width 8, 16 or 32 bits in
either byte order and decoding with the matching reader from a stream
carrying exactly those bytes yields the original value. -/
theorem integer_roundtrip :
    (∀ v : Int, -128 ≤ v → v < 128 →
      (readInt8 ⟨encodeIntBE v 1, []⟩).1 = Except.ok v) ∧
    (∀ v : Nat, v < 256 →
      (readUInt8 ⟨encodeUIntBE v 1, []⟩).1 = Except.ok v) ∧
    (∀ v : Int, -32768 ≤ v → v < 32768 →
      (readInt16BE ⟨encodeIntBE v 2, []⟩).1 = Except.ok v) ∧
    (∀ v : Int, -32768 ≤ v → v < 32768 →
      (readInt16LE ⟨encodeIntLE v 2, []⟩).1 = Except.ok v) ∧
    (∀ v : Nat, v < 65536 →
      (readUInt16BE ⟨encodeUIntBE v 2, []⟩).1 = Except.ok v) ∧
    (∀ v : Nat, v < 65536 →
      (readUInt16LE ⟨encodeUIntLE v 2, []⟩).1 = Except.ok v) ∧
    (∀ v : Int, -2147483648 ≤ v → v < 2147483648 →
      (readInt32BE ⟨encodeIntBE v 4, []⟩).1 = Except.ok v) ∧
    (∀ v : Int, -2147483648 ≤ v → v < 2147483648 →
      (readInt32LE ⟨encodeIntLE v 4, []⟩).1 = Except.ok v) ∧
    (∀ v : Nat, v < 4294967296 →
      (readUInt32BE ⟨encodeUIntBE v 4, []⟩).1 = Except.ok v) ∧
    (∀ v : Nat, v < 4294967296 →
      (readUInt32LE ⟨encodeUIntLE v 4, []⟩).1 = Except.ok v) := by
  have hIB : ∀ (v : Int) (w : Nat), (encodeIntBE v w).length = w := by
    intro v w
    rw [encodeIntBE]
    exact natToBytesBE_length _ _
  have hIL : ∀ (v : Int) (w : Nat), (encodeIntLE v w).length = w := by
    intro v w
    rw [encodeIntLE, List.length_reverse]
    exact hIB v w
  have hUB : ∀ (v w : Nat), (encodeUIntBE v w).length = w := by
    intro v w
    exact natToBytesBE_length _ _
  have hUL : ∀ (v w : Nat), (encodeUIntLE v w).length = w := by
    intro v w
    rw [encodeUIntLE, List.length_reverse]
    exact natToBytesBE_length _ _
  refine ⟨?_, ?_, ?_, ?_, ?_, ?_, ?_, ?_, ?_, ?_⟩
  · intro v hlo hhi
    rw [readInt8, fixed_intBE_decode _ 1 (hIB v 1),
      int_roundtrip_BE v 1 (by norm_num; omega) (by norm_num; omega)]
  · intro v hv
    rw [readUInt8, fixed_uintBE_decode _ 1 (hUB v 1),
      uint_roundtrip_BE v 1 (by norm_num; omega)]
  · intro v hlo hhi
    rw [readInt16BE, fixed_intBE_decode _ 2 (hIB v 2),
      int_roundtrip_BE v 2 (by norm_num; omega) (by norm_num; omega)]
  · intro v hlo hhi
    rw [readInt16LE, fixed_intLE_decode _ 2 (hIL v 2),
      int_roundtrip_LE v 2 (by norm_num; omega) (by norm_num; omega)]
  · intro v hv
    rw [readUInt16BE, fixed_uintBE_decode _ 2 (hUB v 2),
      uint_roundtrip_BE v 2 (by norm_num; omega)]
  · intro v hv
    rw [readUInt16LE, fixed_uintLE_decode _ 2 (hUL v 2),
      uint_roundtrip_LE v 2 (by norm_num; omega)]
  · intro v hlo hhi
    rw [readInt32BE, fixed_intBE_decode _ 4 (hIB v 4),
      int_roundtrip_BE v 4 (by norm_num; omega) (by norm_num; omega)]
  · intro v hlo hhi
    rw [readInt32LE, fixed_intLE_decode _ 4 (hIL v 4),
      int_roundtrip_LE v 4 (by norm_num; omega) (by norm_num; omega)]
  · intro v hv
    rw [readUInt32BE, fixed_uintBE_decode _ 4 (hUB v 4),
      uint_roundtrip_BE v 4 (by norm_num; omega)]
  · intro v hv
    rw [readUInt32LE, fixed_uintLE_decode _ 4 (hUL v 4),
      uint_roundtrip_LE v 4 (by norm_num; omega)]

/-- Witness for C9 at concrete values of every width, sign and byte order. -/
theorem integer_roundtrip_witness :
    (readInt8 ⟨encodeIntBE (-123) 1, []⟩).1 = Except.ok (-123) ∧
    (readUInt8 ⟨encodeUIntBE 250 1, []⟩).1 = Except.ok 250 ∧
    (readInt16BE ⟨encodeIntBE (-12345) 2, []⟩).1 = Except.ok (-12345) ∧
    (readInt16LE ⟨encodeIntLE 12345 2, []⟩).1 = Except.ok 12345 ∧
    (readUInt16BE ⟨encodeUIntBE 54321 2, []⟩).1 = Except.ok 54321 ∧
    (readUInt16LE ⟨encodeUIntLE 54321 2, []⟩).1 = Except.ok 54321 ∧
    (readInt32BE ⟨encodeIntBE 1000000 4, []⟩).1 = Except.ok 1000000 ∧
    (readInt32LE ⟨encodeIntLE (-1000000) 4, []⟩).1 = Except.ok (-1000000) ∧
    (readUInt32BE ⟨encodeUIntBE 4000000000 4, []⟩).1 = Except.ok 4000000000 ∧
    (readUInt32LE ⟨encodeUIntLE 4000000000 4, []⟩).1 = Except.ok 4000000000 :=
  ⟨integer_roundtrip.1 (-123) (by norm_num) (by norm_num),
   integer_roundtrip.2.1 250 (by norm_num),
   integer_roundtrip.2.2.1 (-12345) (by norm_num) (by norm_num),
   integer_roundtrip.2.2.2.1 12345 (by norm_num) (by norm_num),
   integer_roundtrip.2.2.2.2.1 54321 (by norm_num),
   integer_roundtrip.2.2.2.2.2.1 54321 (by norm_num),
   integer_roundtrip.2.2.2.2.2.2.1 1000000 (by norm_num) (by norm_num),
   integer_roundtrip.2.2.2.2.2.2.2.1 (-1000000) (by norm_num) (by norm_num),
   integer_roundtrip.2.2.2.2.2.2.2.2.1 4000000000 (by norm_num),
   integer_roundtrip.2.2.2.2.2.2.2.2.2 4000000000 (by norm_num)⟩

/-- C3: on an 8-byte block, readUInt64BE succeeds exactly when bytes 0 and 1
are zero, returning the remaining 6 bytes as an unsigned 48-bit value, at
most 2 to the 48 minus 1, and fails with valueOutOfRange otherwise; dually,
readUInt64LE keys on bytes 6 and 7 and decodes the first 6 bytes. -/
theorem readUInt64_highBytes (block : List Nat) (h8 : block.length = 8)
    (hb : ∀ b ∈ block, b < 256) :
    ((block.getD 0 0 = 0 ∧ block.getD 1 0 = 0 →
        (readUInt64BE ⟨block, []⟩).1 = Except.ok (uintBE (block.drop 2)) ∧
        uintBE (block.drop 2) ≤ 2 ^ 48 - 1) ∧
     (¬(block.getD 0 0 = 0 ∧ block.getD 1 0 = 0) →
        (readUInt64BE ⟨block, []⟩).1 = Except.error GErr.valueOutOfRange) ∧
     ((∃ v, (readUInt64BE ⟨block, []⟩).1 = Except.ok v) ↔
        block.getD 0 0 = 0 ∧ block.getD 1 0 = 0)) ∧
    ((block.getD 6 0 = 0 ∧ block.getD 7 0 = 0 →
        (readUInt64LE ⟨block, []⟩).1 = Except.ok (uintLE (block.take 6)) ∧
        uintLE (block.take 6) ≤ 2 ^ 48 - 1) ∧
     (¬(block.getD 6 0 = 0 ∧ block.getD 7 0 = 0) →
        (readUInt64LE ⟨block, []⟩).1 = Except.error GErr.valueOutOfRange) ∧
     ((∃ v, (readUInt64LE ⟨block, []⟩).1 = Except.ok v) ↔
        block.getD 6 0 = 0 ∧ block.getD 7 0 = 0)) := by
  have hsliceBE : (block.drop 2).take 6 = block.drop 2 := by
    apply List.take_of_length_le
    simp [h8]
  have hsliceLE : (block.drop 0).take 6 = block.take 6 := by
    simp [List.drop_zero]
  have hredBE : (readUInt64BE ⟨block, []⟩).1 =
      if block.getD 0 0 ≠ 0 ∨ block.getD 1 0 ≠ 0 then
        Except.error GErr.valueOutOfRange
      else Except.ok (uintBE (block.drop 2)) := by
    rw [readUInt64BE, readBytes_exact block 8 h8, andThen]
    simp only [Except.bind]
    split_ifs with hc
    · rfl
    · rw [bufReadUIntBE, if_pos (by norm_num), bufUIntBEat,
        if_pos (by simp [h8]), hsliceBE]
  have hredLE : (readUInt64LE ⟨block, []⟩).1 =
      if block.getD 6 0 ≠ 0 ∨ block.getD 7 0 ≠ 0 then
        Except.error GErr.valueOutOfRange
      else Except.ok (uintLE (block.take 6)) := by
    rw [readUInt64LE, readBytes_exact block 8 h8, andThen]
    simp only [Except.bind]
    split_ifs with hc
    · rfl
    · rw [bufReadUIntLE, if_pos (by norm_num), bufUIntLEat,
        if_pos (by simp [h8]), hsliceLE]
  have hboundBE : uintBE (block.drop 2) ≤ 2 ^ 48 - 1 := by
    have hdl : (block.drop 2).length = 6 := by simp [h8]
    have hlt := uintBE_lt (block.drop 2) (fun b hm => hb b (List.mem_of_mem_drop hm))
    rw [hdl] at hlt
    norm_num at hlt ⊢
    omega
  have hboundLE : uintLE (block.take 6) ≤ 2 ^ 48 - 1 := by
    have htl : (block.take 6).length = 6 := by simp [h8]
    have hlt := uintBE_lt (block.take 6).reverse
      (fun b hm => hb b (List.mem_of_mem_take (List.mem_reverse.mp hm)))
    rw [List.length_reverse, htl] at hlt
    rw [uintLE]
    norm_num at hlt ⊢
    omega
  refine ⟨⟨?_, ?_, ?_⟩, ⟨?_, ?_, ?_⟩⟩
  · rintro ⟨h0, h1⟩
    rw [hredBE, if_neg (by tauto)]
    exact ⟨rfl, hboundBE⟩
  · intro hn
    rw [hredBE, if_pos (by tauto)]
  · constructor
    · rintro ⟨v, hv⟩
      by_cases hc : block.getD 0 0 = 0 ∧ block.getD 1 0 = 0
      · exact hc
      · rw [hredBE, if_pos (by tauto)] at hv
        cases hv
    · rintro ⟨h0, h1⟩
      exact ⟨uintBE (block.drop 2), by rw [hredBE, if_neg (by tauto)]⟩
  · rintro ⟨h6, h7⟩
    rw [hredLE, if_neg (by tauto)]
    exact ⟨rfl, hboundLE⟩
  · intro hn
    rw [hredLE, if_pos (by tauto)]
  · constructor
    · rintro ⟨v, hv⟩
      by_cases hc : block.getD 6 0 = 0 ∧ block.getD 7 0 = 0
      · exact hc
      · rw [hredLE, if_pos (by tauto)] at hv
        cases hv
    · rintro ⟨h6, h7⟩
      exact ⟨uintLE (block.take 6), by rw [hredLE, if_neg (by tauto)]⟩

/-- Witness for C3 at the concrete block 0 0 1 2 3 4 5 6: the big-endian read
succeeds with the 48-bit value of the last six bytes, the little-endian read
rejects because byte 6 is 5 and byte 7 is 6. -/
theorem readUInt64_highBytes_witness :
    (readUInt64BE ⟨[0, 0, 1, 2, 3, 4, 5, 6], []⟩).1 =
      Except.ok (uintBE [1, 2, 3, 4, 5, 6]) ∧
    (readUInt64LE ⟨[0, 0, 1, 2, 3, 4, 5, 6], []⟩).1 =
      Except.error GErr.valueOutOfRange :=
  ⟨((readUInt64_highBytes [0, 0, 1, 2, 3, 4, 5, 6] rfl (by decide)).1.1
      ⟨rfl, rfl⟩).1,
   (readUInt64_highBytes [0, 0, 1, 2, 3, 4, 5, 6] rfl (by decide)).2.2.1
      (by decide)⟩

/-- C4, counterexample: readIntBE and readIntLE do not dispatch on byteLength.
At byteLength 8 the 8 read bytes go straight to the generic Buffer decoder,
which rejects lengths outside 1 to 6, so the call fails with the Buffer range
error instead of decoding the 64-bit value 1; at byteLength 7 the failure is
likewise the Buffer range error, not the invalid-argument rejection of the
library. -/
theorem readIntBE_no_dispatch_cex :
    (readIntBE ⟨[0, 0, 0, 0, 0, 0, 0, 1], []⟩ 8).1 =
      Except.error GErr.bufferRangeError ∧
    (readIntBE ⟨[0, 0, 0, 0, 0, 0, 0, 1], []⟩ 8).1 ≠ Except.ok 1 ∧
    (readIntLE ⟨[1, 0, 0, 0, 0, 0, 0, 0], []⟩ 8).1 =
      Except.error GErr.bufferRangeError ∧
    (readIntBE ⟨[0, 0, 0, 0, 0, 0, 1], []⟩ 7).1 =
      Except.error GErr.bufferRangeError ∧
    (readIntBE ⟨[0, 0, 0, 0, 0, 0, 1], []⟩ 7).1 ≠
      Except.error GErr.invalidArgument := by
  refine ⟨rfl, ?_, rfl, rfl, ?_⟩
  · intro hcontra
    rw [show (readIntBE ⟨[0, 0, 0, 0, 0, 0, 0, 1], []⟩ 8).1 =
        Except.error GErr.bufferRangeError from rfl] at hcontra
    cases hcontra
  · intro hcontra
    rw [show (readIntBE ⟨[0, 0, 0, 0, 0, 0, 1], []⟩ 7).1 =
        Except.error GErr.bufferRangeError from rfl] at hcontra
    cases hcontra

/-- C4, amended: only readUIntBE and readUIntLE dispatch, sending byteLength 8
to the restricted 64-bit decoders and rejecting byteLength 7 with the
invalid-argument error before reading; byte lengths 1 to 6 go to the generic
fixed-width decode.  readIntBE and readIntLE always delegate to the generic
decode, which handles byte lengths 1 to 6 and fails with the Buffer layer
range error at 7 or 8; the library has no signed 64-bit decoders. -/
theorem readUInt_dispatch_signed_generic :
    (∀ stream : ReadableStream, readUIntBE stream 8 = readUInt64BE stream) ∧
    (∀ stream : ReadableStream, readUIntLE stream 8 = readUInt64LE stream) ∧
    (∀ stream : ReadableStream,
      (readUIntBE stream 7).1 = Except.error GErr.invalidArgument) ∧
    (∀ stream : ReadableStream,
      (readUIntLE stream 7).1 = Except.error GErr.invalidArgument) ∧
    (∀ (stream : ReadableStream) (bl : Nat), 1 ≤ bl → bl ≤ 6 →
      bl ≤ stream.total.length →
      (readUIntBE stream bl).1 = Except.ok (uintBE (stream.total.take bl))) ∧
    (∀ (stream : ReadableStream) (bl : Nat), 1 ≤ bl → bl ≤ 6 →
      bl ≤ stream.total.length →
      (readUIntLE stream bl).1 = Except.ok (uintLE (stream.total.take bl))) ∧
    (∀ (stream : ReadableStream) (bl : Nat), 1 ≤ bl → bl ≤ 6 →
      bl ≤ stream.total.length →
      (readIntBE stream bl).1 =
        Except.ok (intOfUInt (uintBE (stream.total.take bl)) bl)) ∧
    (∀ (stream : ReadableStream) (bl : Nat), 1 ≤ bl → bl ≤ 6 →
      bl ≤ stream.total.length →
      (readIntLE stream bl).1 =
        Except.ok (intOfUInt (uintLE (stream.total.take bl)) bl)) ∧
    (∀ stream : ReadableStream, 8 ≤ stream.total.length →
      (readIntBE stream 8).1 = Except.error GErr.bufferRangeError ∧
      (readIntLE stream 8).1 = Except.error GErr.bufferRangeError) ∧
    (∀ stream : ReadableStream, 7 ≤ stream.total.length →
      (readIntBE stream 7).1 = Except.error GErr.bufferRangeError ∧
      (readIntLE stream 7).1 = Except.error GErr.bufferRangeError) := by
  refine ⟨fun s => by simp [readUIntBE], fun s => by simp [readUIntLE],
    fun s => by simp [readUIntBE], fun s => by simp [readUIntLE],
    ?_, ?_, ?_, ?_, ?_, ?_⟩
  · intro s bl h1 h6 hlen
    rw [readUIntBE, if_neg (by omega), if_neg (by omega), andThen]
    show ((readBytes s bl).1.bind fun buf => bufReadUIntBE buf 0 bl) = _
    rw [(readBytes_spec s bl hlen).1]
    simp only [Except.bind]
    rw [bufReadUIntBE, if_pos ⟨h1, h6⟩, bufUIntBEat,
      if_pos (by simp [List.length_take]; omega)]
    rw [List.drop_zero, List.take_of_length_le (by simp [List.length_take])]
  · intro s bl h1 h6 hlen
    rw [readUIntLE, if_neg (by omega), if_neg (by omega), andThen]
    show ((readBytes s bl).1.bind fun buf => bufReadUIntLE buf 0 bl) = _
    rw [(readBytes_spec s bl hlen).1]
    simp only [Except.bind]
    rw [bufReadUIntLE, if_pos ⟨h1, h6⟩, bufUIntLEat,
      if_pos (by simp [List.length_take]; omega)]
    rw [List.drop_zero, List.take_of_length_le (by simp [List.length_take])]
  · intro s bl h1 h6 hlen
    rw [readIntBE, andThen]
    show ((readBytes s bl).1.bind fun buf => bufReadIntBE buf 0 bl) = _
    rw [(readBytes_spec s bl hlen).1]
    simp only [Except.bind]
    rw [bufReadIntBE, if_pos ⟨h1, h6⟩, bufIntBEat, bufUIntBEat,
      if_pos (by simp [List.length_take]; omega)]
    rw [List.drop_zero, List.take_of_length_le (by simp [List.length_take])]
    rfl
  · intro s bl h1 h6 hlen
    rw [readIntLE, andThen]
    show ((readBytes s bl).1.bind fun buf => bufReadIntLE buf 0 bl) = _
    rw [(readBytes_spec s bl hlen).1]
    simp only [Except.bind]
    rw [bufReadIntLE, if_pos ⟨h1, h6⟩, bufIntLEat, bufUIntLEat,
      if_pos (by simp [List.length_take]; omega)]
    rw [List.drop_zero, List.take_of_length_le (by simp [List.length_take])]
    rfl
  · intro s h
    constructor
    · rw [readIntBE, andThen]
      show ((readBytes s 8).1.bind fun buf => bufReadIntBE buf 0 8) = _
      rw [(readBytes_spec s 8 h).1]
      simp [Except.bind, bufReadIntBE]
    · rw [readIntLE, andThen]
      show ((readBytes s 8).1.bind fun buf => bufReadIntLE buf 0 8) = _
      rw [(readBytes_spec s 8 h).1]
      simp [Except.bind, bufReadIntLE]
  · intro s h
    constructor
    · rw [readIntBE, andThen]
      show ((readBytes s 7).1.bind fun buf => bufReadIntBE buf 0 7) = _
      rw [(readBytes_spec s 7 h).1]
      simp [Except.bind, bufReadIntBE]
    · rw [readIntLE, andThen]
      show ((readBytes s 7).1.bind fun buf => bufReadIntLE buf 0 7) = _
      rw [(readBytes_spec s 7 h).1]
      simp [Except.bind, bufReadIntLE]

/-- Witness for the amended C4 at concrete streams. -/
theorem readUInt_dispatch_signed_generic_witness :
    (readUIntBE ⟨[9], []⟩ 7).1 = Except.error GErr.invalidArgument ∧
    (readUIntBE ⟨[1, 2, 3], []⟩ 3).1 = Except.ok (uintBE [1, 2, 3]) ∧
    (readIntBE ⟨[255, 2, 3], []⟩ 3).1 =
      Except.ok (intOfUInt (uintBE [255, 2, 3]) 3) ∧
    (readIntBE ⟨[1, 2, 3, 4, 5, 6, 7, 8], []⟩ 8).1 =
      Except.error GErr.bufferRangeError :=
  ⟨readUInt_dispatch_signed_generic.2.2.1 ⟨[9], []⟩,
   readUInt_dispatch_signed_generic.2.2.2.2.1 ⟨[1, 2, 3], []⟩ 3
     (by decide) (by decide) (by decide),
   readUInt_dispatch_signed_generic.2.2.2.2.2.2.1 ⟨[255, 2, 3], []⟩ 3
     (by decide) (by decide) (by decide),
   (readUInt_dispatch_signed_generic.2.2.2.2.2.2.2.2.1
     ⟨[1, 2, 3, 4, 5, 6, 7, 8], []⟩ (by decide)).1⟩

/-- Helper: settling never touches the listener flags. -/
theorem settle_errListener (r : Except GErr (List Nat)) (s : MachState) :
    (settle r s).errListener = s.errListener := by
  rw [settle]
  split_ifs <;> rfl

/-- Helper: settling never touches the readable-listener flag either. -/
theorem settle_readListener (r : Except GErr (List Nat)) (s : MachState) :
    (settle r s).readListener = s.readListener := by
  rw [settle]
  split_ifs <;> rfl

/-- Helper: branch equation of checkDone for a truthy pull. -/
theorem checkDone_some (size : Nat) (s : MachState) (buf : List Nat)
    (hpull : pull s.buffered s.ended size = some buf) :
    checkDone size s =
      if buf.length = size then
        settle (Except.ok buf)
          { s with errListener := false, buffered := s.buffered.drop buf.length }
      else
        settle (Except.error (GErr.insufficientData size buf.length))
          { s with errListener := false, buffered := s.buffered.drop buf.length } := by
  rw [checkDone, hpull]

/-- Helper: branch equation of checkDone for a falsy pull. -/
theorem checkDone_none (size : Nat) (s : MachState)
    (hpull : pull s.buffered s.ended size = none) :
    checkDone size s = { s with readListener := true } := by
  rw [checkDone, hpull]

/-- Helper: checkDone, entered with no pending readable listener and not yet
settled with a result of its own, leaves no listeners behind whenever its
outcome is a checkDone settlement (anything but the stream error). -/
theorem checkDone_clean (size : Nat) (s : MachState)
    (hr : s.readListener = false)
    (hs : s.settled = none ∨ s.settled = some (Except.error GErr.streamError)) :
    ∀ r, (checkDone size s).settled = some r →
      r ≠ Except.error GErr.streamError →
      (checkDone size s).errListener = false ∧
      (checkDone size s).readListener = false := by
  intro r hsr hne
  cases hpull : pull s.buffered s.ended size with
  | some buf =>
      rw [checkDone_some size s buf hpull]
      by_cases hlen : buf.length = size
      · rw [if_pos hlen, settle_errListener, settle_readListener]
        exact ⟨rfl, hr⟩
      · rw [if_neg hlen, settle_errListener, settle_readListener]
        exact ⟨rfl, hr⟩
  | none =>
      rw [checkDone_none size s hpull] at hsr
      have hsr2 : s.settled = some r := hsr
      rcases hs with hs | hs
      · rw [hs] at hsr2
        cases hsr2
      · rw [hs] at hsr2
        cases hsr2
        exact absurd rfl hne

/-- Helper: one stream event preserves the cleanliness property of the
outstanding call. -/
theorem handleEvent_clean (size : Nat) (s : MachState) (e : StreamEvent)
    (ih : ∀ r, s.settled = some r → r ≠ Except.error GErr.streamError →
      s.errListener = false ∧ s.readListener = false) :
    ∀ r, (handleEvent size s e).settled = some r →
      r ≠ Except.error GErr.streamError →
      (handleEvent size s e).errListener = false ∧
      (handleEvent size s e).readListener = false := by
  intro r hsr hne
  cases e with
  | chunk d =>
      rw [handleEvent] at hsr ⊢
      by_cases hrl : s.readListener
      · rw [if_pos hrl] at hsr ⊢
        refine checkDone_clean size _ rfl ?_ r hsr hne
        rcases hset : s.settled with _ | r2
        · exact Or.inl rfl
        · by_cases hr2 : r2 = Except.error GErr.streamError
          · exact Or.inr (by rw [hr2])
          · exact absurd (ih r2 hset hr2).2 (by simp [hrl])
      · rw [if_neg hrl] at hsr ⊢
        exact ih r hsr hne
  | ended =>
      rw [handleEvent] at hsr ⊢
      by_cases hrl : s.readListener
      · rw [if_pos hrl] at hsr ⊢
        refine checkDone_clean size _ rfl ?_ r hsr hne
        rcases hset : s.settled with _ | r2
        · exact Or.inl rfl
        · by_cases hr2 : r2 = Except.error GErr.streamError
          · exact Or.inr (by rw [hr2])
          · exact absurd (ih r2 hset hr2).2 (by simp [hrl])
      · rw [if_neg hrl] at hsr ⊢
        exact ih r hsr hne
  | error =>
      rw [handleEvent] at hsr ⊢
      by_cases hel : s.errListener
      · rw [if_pos hel] at hsr ⊢
        rw [settle_errListener, settle_readListener]
        rcases hset : s.settled with _ | r2
        · have hv : (settle (Except.error GErr.streamError) s).settled =
              some (Except.error GErr.streamError) := by
            rw [settle]
            simp [hset]
          rw [hv] at hsr
          cases hsr
          exact absurd rfl hne
        · have hv : (settle (Except.error GErr.streamError) s).settled =
              s.settled := by
            rw [settle]
            simp [hset]
          rw [hv, hset] at hsr
          cases hsr
          exact ih r hset hne
      · rw [if_neg hel] at hsr ⊢
        exact ih r hsr hne

/-- Helper: the cleanliness property survives any sequence of stream
events. -/
theorem foldlEvents_clean (size : Nat) (events : List StreamEvent) :
    ∀ s : MachState,
      (∀ r, s.settled = some r → r ≠ Except.error GErr.streamError →
        s.errListener = false ∧ s.readListener = false) →
      ∀ r, (events.foldl (handleEvent size) s).settled = some r →
        r ≠ Except.error GErr.streamError →
        (events.foldl (handleEvent size) s).errListener = false ∧
        (events.foldl (handleEvent size) s).readListener = false := by
  induction events with
  | nil =>
      intro s ih
      simpa using ih
  | cons e rest ihE =>
      intro s ih
      rw [List.foldl_cons]
      exact ihE (handleEvent size s e) (handleEvent_clean size s e ih)

/-- C6, counterexample: a readBytes call for 4 bytes that is rejected by a
stream error event ends with the promise settled but with both the error
listener, registered with on rather than once, and the pending readable
listener still attached to the stream. -/
theorem readBytes_error_listener_leak :
    (readBytesMach 4 [] [StreamEvent.error]).settled =
      some (Except.error GErr.streamError) ∧
    (readBytesMach 4 [] [StreamEvent.error]).errListener = true ∧
    (readBytesMach 4 [] [StreamEvent.error]).readListener = true :=
  ⟨rfl, rfl, rfl⟩

/-- C6, amended: whenever the promise of a readBytes call settles through
checkDone, that is, resolves with a block or rejects with insufficientData,
no listener registered by the call remains attached: the error listener was
removed before settling and no readable listener is pending.  Only on the
stream-error path do listeners remain attached. -/
theorem readBytes_listener_cleanup (size : Nat) (init : List Nat)
    (events : List StreamEvent) (r : Except GErr (List Nat))
    (hset : (readBytesMach size init events).settled = some r)
    (hr : r ≠ Except.error GErr.streamError) :
    (readBytesMach size init events).errListener = false ∧
    (readBytesMach size init events).readListener = false := by
  rw [readBytesMach] at hset ⊢
  refine foldlEvents_clean size events _ ?_ r hset hr
  exact checkDone_clean size ⟨init, false, true, false, none⟩ rfl (Or.inl rfl)

/-- Witness for the amended C6: a call that resolves at once from preloaded
bytes ends with both listener flags cleared. -/
theorem readBytes_listener_cleanup_witness :
    (readBytesMach 2 [1, 2, 3] []).errListener = false ∧
    (readBytesMach 2 [1, 2, 3] []).readListener = false :=
  readBytes_listener_cleanup 2 [1, 2, 3] [] (Except.ok [1, 2]) rfl (by simp)

/-- Helper: hex text of an appended byte list splits at the join. -/
theorem bytesToHex_append (a b : List Nat) :
    bytesToHex (a ++ b) = bytesToHex a ++ bytesToHex b := by
  simp [bytesToHex, List.flatMap_append]

/-- Helper: hex text is two characters per byte. -/
theorem bytesToHex_length (l : List Nat) :
    (bytesToHex l).length = 2 * l.length := by
  induction l with
  | nil => rfl
  | cons b t ih =>
      simp only [bytesToHex, List.flatMap_cons] at ih ⊢
      simp only [List.length_append, List.length_cons, List.length_nil,
        List.length_cons] at ih ⊢
      omega

/-- C7: readTextUuid reads the requested bytes as text and then applies the
validator according to its kind: a pattern or a predicate returns the text
when it accepts and rejects with uuidValidationFailed when it does not,
while a truthy validator of unrecognized kind rejects with invalidArgument;
under the default options the 36-byte ASCII text of the test UUID is
returned unchanged. -/
theorem readTextUuid_validation :
    (∀ (stream : ReadableStream) (size : Nat) (t : List Nat → Bool),
      size ≤ stream.total.length →
      ((t (stream.total.take size) = true →
        (readTextUuid stream (JsValidator.regexp t) size).1 =
          Except.ok (stream.total.take size)) ∧
       (t (stream.total.take size) = false →
        (readTextUuid stream (JsValidator.regexp t) size).1 =
          Except.error GErr.uuidValidationFailed))) ∧
    (∀ (stream : ReadableStream) (size : Nat) (f : List Nat → Bool),
      size ≤ stream.total.length →
      ((f (stream.total.take size) = true →
        (readTextUuid stream (JsValidator.func f) size).1 =
          Except.ok (stream.total.take size)) ∧
       (f (stream.total.take size) = false →
        (readTextUuid stream (JsValidator.func f) size).1 =
          Except.error GErr.uuidValidationFailed))) ∧
    (∀ (stream : ReadableStream) (size : Nat),
      size ≤ stream.total.length →
      (readTextUuid stream JsValidator.other size).1 =
        Except.error GErr.invalidArgument) ∧
    (readTextUuidDefault ⟨uuidTextBytes, []⟩).1 = Except.ok uuidTextBytes := by
  refine ⟨?_, ?_, ?_, ?_⟩
  · intro stream size t hlen
    constructor <;> intro ht <;>
      · simp only [readTextUuid, andThen, readText]
        rw [(readBytes_spec stream size hlen).1]
        simp [Except.bind, ht]
  · intro stream size f hlen
    constructor <;> intro hf <;>
      · simp only [readTextUuid, andThen, readText]
        rw [(readBytes_spec stream size hlen).1]
        simp [Except.bind, hf]
  · intro stream size hlen
    simp only [readTextUuid, andThen, readText]
    rw [(readBytes_spec stream size hlen).1]
    simp [Except.bind]
  · rfl

/-- Witness for C7: the default read on the test UUID, an unrecognized
validator, and a rejecting predicate, all at concrete streams. -/
theorem readTextUuid_validation_witness :
    (readTextUuid ⟨uuidTextBytes, []⟩ (JsValidator.regexp uuidPatternTest)
        36).1 = Except.ok uuidTextBytes ∧
    (readTextUuid ⟨uuidTextBytes, []⟩ JsValidator.other 36).1 =
      Except.error GErr.invalidArgument ∧
    (readTextUuid ⟨[1, 2, 3], []⟩ (JsValidator.func fun t => t.length == 0)
        3).1 = Except.error GErr.uuidValidationFailed :=
  ⟨(readTextUuid_validation.1 ⟨uuidTextBytes, []⟩ 36 uuidPatternTest
      (by decide)).1 (by decide),
   readTextUuid_validation.2.2.1 ⟨uuidTextBytes, []⟩ 36 (by decide),
   (readTextUuid_validation.2.1 ⟨[1, 2, 3], []⟩ 3 (fun t => t.length == 0)
      (by decide)).2 (by decide)⟩

/-- C10: an explicitly falsy validator skips validation entirely: whenever the
read succeeds the decoded text is returned unchanged, and no call with a
falsy validator ever rejects with uuidValidationFailed or invalidArgument. -/
theorem readTextUuid_skip_validation :
    (∀ (stream : ReadableStream) (size : Nat), size ≤ stream.total.length →
      (readTextUuid stream JsValidator.nullv size).1 =
        Except.ok (stream.total.take size)) ∧
    (∀ (stream : ReadableStream) (size : Nat),
      (readTextUuid stream JsValidator.nullv size).1 ≠
        Except.error GErr.uuidValidationFailed ∧
      (readTextUuid stream JsValidator.nullv size).1 ≠
        Except.error GErr.invalidArgument) := by
  constructor
  · intro stream size hlen
    simp only [readTextUuid, andThen, readText]
    rw [(readBytes_spec stream size hlen).1]
    simp [Except.bind]
  · intro stream size
    simp only [readTextUuid, andThen, readText]
    cases hres : (readBytes stream size).1 with
    | ok t => simp [Except.bind, hres]
    | error e =>
        obtain ⟨m, n, he⟩ :=
          readBytesGo_error_insufficient size stream.future stream.buffered e hres
        subst he
        simp [Except.bind, hres]

/-- Witness for C10: a two-byte non-UUID text is returned unchanged under a
falsy validator. -/
theorem readTextUuid_skip_validation_witness :
    (readTextUuid ⟨[7, 8], []⟩ JsValidator.nullv 2).1 = Except.ok [7, 8] :=
  readTextUuid_skip_validation.1 ⟨[7, 8], []⟩ 2 (by decide)

/-- C8: on a 16-byte block, readBinaryUuid returns the lowercase hex of the
byte groups 4-2-2-2-6 joined by dashes; that text agrees with the canonical
dashed form described by the spec and is 36 characters long, and the 16-byte
binary form of the test UUID yields exactly its dashed string. -/
theorem readBinaryUuid_canonical :
    (∀ b0 b1 b2 b3 b4 : List Nat,
      b0.length = 4 → b1.length = 2 → b2.length = 2 → b3.length = 2 →
      b4.length = 6 →
      (readBinaryUuid ⟨b0 ++ b1 ++ b2 ++ b3 ++ b4, []⟩).1 =
        Except.ok (bytesToHex b0 ++ [45] ++ bytesToHex b1 ++ [45] ++
          bytesToHex b2 ++ [45] ++ bytesToHex b3 ++ [45] ++ bytesToHex b4) ∧
      bytesToHex b0 ++ [45] ++ bytesToHex b1 ++ [45] ++ bytesToHex b2 ++
          [45] ++ bytesToHex b3 ++ [45] ++ bytesToHex b4 =
        canonicalUuidOfBytes (b0 ++ b1 ++ b2 ++ b3 ++ b4) ∧
      (bytesToHex b0 ++ [45] ++ bytesToHex b1 ++ [45] ++ bytesToHex b2 ++
          [45] ++ bytesToHex b3 ++ [45] ++ bytesToHex b4).length = 36) ∧
    (readBinaryUuid ⟨uuidBinaryBytes, []⟩).1 = Except.ok uuidTextBytes := by
  constructor
  · intro b0 b1 b2 b3 b4 h0 h1 h2 h3 h4
    have hlen : (b0 ++ b1 ++ b2 ++ b3 ++ b4).length = 16 := by
      simp [h0, h1, h2, h3, h4]
    have s1 : (b0 ++ b1 ++ b2 ++ b3 ++ b4).take 4 = b0 := by
      have hsplit : b0 ++ b1 ++ b2 ++ b3 ++ b4 =
          b0 ++ (b1 ++ b2 ++ b3 ++ b4) := by
        simp [List.append_assoc]
      rw [hsplit]
      exact List.take_left' h0
    have s2 : ((b0 ++ b1 ++ b2 ++ b3 ++ b4).drop 4).take 2 = b1 := by
      have hsplit : b0 ++ b1 ++ b2 ++ b3 ++ b4 =
          b0 ++ (b1 ++ (b2 ++ b3 ++ b4)) := by
        simp [List.append_assoc]
      rw [hsplit, List.drop_left' h0]
      exact List.take_left' h1
    have s3 : ((b0 ++ b1 ++ b2 ++ b3 ++ b4).drop 6).take 2 = b2 := by
      have hsplit : b0 ++ b1 ++ b2 ++ b3 ++ b4 =
          (b0 ++ b1) ++ (b2 ++ (b3 ++ b4)) := by
        simp [List.append_assoc]
      rw [hsplit, List.drop_left' (by simp [h0, h1])]
      exact List.take_left' h2
    have s4 : ((b0 ++ b1 ++ b2 ++ b3 ++ b4).drop 8).take 2 = b3 := by
      have hsplit : b0 ++ b1 ++ b2 ++ b3 ++ b4 =
          (b0 ++ b1 ++ b2) ++ (b3 ++ b4) := by
        simp [List.append_assoc]
      rw [hsplit, List.drop_left' (by simp [h0, h1, h2])]
      exact List.take_left' h3
    have s5 : ((b0 ++ b1 ++ b2 ++ b3 ++ b4).drop 10).take 6 = b4 := by
      have hsplit : b0 ++ b1 ++ b2 ++ b3 ++ b4 =
          (b0 ++ b1 ++ b2 ++ b3) ++ b4 := rfl
      rw [hsplit, List.drop_left' (by simp [h0, h1, h2, h3])]
      exact List.take_of_length_le (le_of_eq h4)
    refine ⟨?_, ?_, ?_⟩
    · rw [readBinaryUuid, readBytes_exact _ 16 hlen, andThen]
      simp only [Except.bind]
      rw [s1, s2, s3, s4, s5]
    · have hA : (bytesToHex (b0 ++ b1 ++ b2 ++ b3 ++ b4)).take 8 =
          bytesToHex b0 := by
        have hsplit : bytesToHex (b0 ++ b1 ++ b2 ++ b3 ++ b4) =
            bytesToHex b0 ++ bytesToHex (b1 ++ b2 ++ b3 ++ b4) := by
          rw [show b0 ++ b1 ++ b2 ++ b3 ++ b4 = b0 ++ (b1 ++ b2 ++ b3 ++ b4)
            from by simp [List.append_assoc], bytesToHex_append]
        rw [hsplit]
        exact List.take_left' (by rw [bytesToHex_length, h0])
      have hB : ((bytesToHex (b0 ++ b1 ++ b2 ++ b3 ++ b4)).drop 8).take 4 =
          bytesToHex b1 := by
        have hsplit : bytesToHex (b0 ++ b1 ++ b2 ++ b3 ++ b4) =
            bytesToHex b0 ++ (bytesToHex b1 ++
              bytesToHex (b2 ++ b3 ++ b4)) := by
          rw [show b0 ++ b1 ++ b2 ++ b3 ++ b4 = b0 ++ (b1 ++ (b2 ++ b3 ++ b4))
            from by simp [List.append_assoc], bytesToHex_append,
            bytesToHex_append]
        rw [hsplit, List.drop_left' (by rw [bytesToHex_length, h0])]
        exact List.take_left' (by rw [bytesToHex_length, h1])
      have hC : ((bytesToHex (b0 ++ b1 ++ b2 ++ b3 ++ b4)).drop 12).take 4 =
          bytesToHex b2 := by
        have hsplit : bytesToHex (b0 ++ b1 ++ b2 ++ b3 ++ b4) =
            (bytesToHex b0 ++ bytesToHex b1) ++ (bytesToHex b2 ++
              bytesToHex (b3 ++ b4)) := by
          rw [show b0 ++ b1 ++ b2 ++ b3 ++ b4 = (b0 ++ b1) ++ (b2 ++ (b3 ++ b4))
            from by simp [List.append_assoc], bytesToHex_append,
            bytesToHex_append, bytesToHex_append]
        rw [hsplit,
          List.drop_left' (by simp [bytesToHex_length, h0, h1])]
        exact List.take_left' (by rw [bytesToHex_length, h2])
      have hD : ((bytesToHex (b0 ++ b1 ++ b2 ++ b3 ++ b4)).drop 16).take 4 =
          bytesToHex b3 := by
        have hsplit : bytesToHex (b0 ++ b1 ++ b2 ++ b3 ++ b4) =
            (bytesToHex b0 ++ bytesToHex b1 ++ bytesToHex b2) ++
              (bytesToHex b3 ++ bytesToHex b4) := by
          rw [show b0 ++ b1 ++ b2 ++ b3 ++ b4 = (b0 ++ b1 ++ b2) ++ (b3 ++ b4)
            from by simp [List.append_assoc], bytesToHex_append,
            bytesToHex_append, bytesToHex_append, bytesToHex_append]
        rw [hsplit,
          List.drop_left' (by simp [bytesToHex_length, h0, h1, h2])]
        exact List.take_left' (by rw [bytesToHex_length, h3])
      have hE : (bytesToHex (b0 ++ b1 ++ b2 ++ b3 ++ b4)).drop 20 =
          bytesToHex b4 := by
        have hsplit : bytesToHex (b0 ++ b1 ++ b2 ++ b3 ++ b4) =
            (bytesToHex b0 ++ bytesToHex b1 ++ bytesToHex b2 ++
              bytesToHex b3) ++ bytesToHex b4 := by
          rw [bytesToHex_append, bytesToHex_append, bytesToHex_append,
            bytesToHex_append]
        rw [hsplit,
          List.drop_left' (by simp [bytesToHex_length, h0, h1, h2, h3])]
      rw [canonicalUuidOfBytes, hA, hB, hC, hD, hE]
    · simp [bytesToHex_length, h0, h1, h2, h3, h4]
  · rfl

/-- Witness for C8 at the byte groups of the test UUID. -/
theorem readBinaryUuid_canonical_witness :
    (readBinaryUuid ⟨[75, 250, 188, 1] ++ [211, 133] ++ [70, 254] ++
        [176, 16] ++ [142, 177, 124, 246, 87, 231], []⟩).1 =
      Except.ok (bytesToHex [75, 250, 188, 1] ++ [45] ++
        bytesToHex [211, 133] ++ [45] ++ bytesToHex [70, 254] ++ [45] ++
        bytesToHex [176, 16] ++ [45] ++
        bytesToHex [142, 177, 124, 246, 87, 231]) :=
  (readBinaryUuid_canonical.1 [75, 250, 188, 1] [211, 133] [70, 254]
    [176, 16] [142, 177, 124, 246, 87, 231] rfl rfl rfl rfl rfl).1

end Gartal
